import Mathlib

/-!
Verification of the `elk` command orchestrator (`src/elk/__main__.py`).

The single source function `run()` parses a subcommand, short-circuits for
the `list` command, resolves layers and device, optionally initializes a
distributed process group, gates stdout/logging on non-root ranks, and
dispatches to the extract / train / elicit / eval actions, where `elicit`
implements a one-shot cache-miss fallback (train, on EOFError or
FileNotFoundError run extraction, barrier, train again).

We model `run()` as a pure function of
  - an `Env` (the `LOCAL_RANK` environment variable, CUDA availability),
  - a `World` of external collaborators (the model-config provider
    `AutoConfig`, and the outcomes of the `train` / `run_extraction` /
    `evaluate` actions, which the spec declares out of scope), and
  - the parsed `Args`,
returning a `RunResult`: the success-or-error outcome, an ordered trace of
observable events, the visible standard output, the final (possibly
mutated) argument record, and the final stdout target and logger level.
-/

namespace Elk

/-- The parsed subcommand (`args.command`).  The argument parser only
produces the five known names, but the source keeps a defensive
else-branch, modelled by `unknown`. -/
inductive Command
  | extract
  | train
  | elicit
  | eval
  | list
  | unknown (s : String)
  deriving DecidableEq, Repr

/-- String form of a command, as interpolated in the source's
error message. -/
def commandName : Command → String
  | Command.extract => "extract"
  | Command.train => "train"
  | Command.elicit => "elicit"
  | Command.eval => "eval"
  | Command.list => "list"
  | Command.unknown s => s

/-- The parsed argument namespace.  `extra` stands for the remaining
opaque configuration fields that `run()` never touches. -/
structure Args where
  command : Command
  model : Option String
  layers : List Nat
  layer_stride : Nat
  device : Option String
  name : Option String
  extra : Nat
  deriving DecidableEq, Repr

/-- Outcome of one invocation of the `train` action. -/
inductive TrainResult
  | success
  | eofError
  | fileNotFoundError
  | other (code : Nat)
  deriving DecidableEq, Repr

/-- Outcome of one invocation of the `run_extraction` action. -/
inductive ExtractResult
  | success
  | ioFailure (code : Nat)
  deriving DecidableEq, Repr

/-- Outcome of the `evaluate` action. -/
inductive EvalResult
  | success
  | failure (code : Nat)
  deriving DecidableEq, Repr

/-- Errors that can propagate out of `run()`. -/
inductive Err
  | valueError (msg : String)
  | eofError
  | fileNotFoundError
  | trainOther (code : Nat)
  | extractError (code : Nat)
  | evalError (code : Nat)
  deriving DecidableEq, Repr

deriving instance DecidableEq for Except

/-- Observable events, in program order. -/
inductive Event
  | listRuns
  | importTransformers
  | queryModelConfig (model : String)
  | initProcessGroup
  | deviceResolve
  | redirectStdout
  | restoreStdout
  | setTransformersLoggerError
  | trainCall (name : Option String)
  | extractCall (name : Option String)
  | barrier
  | evaluateCall
  deriving DecidableEq, Repr

/-- The process environment: the `LOCAL_RANK` variable (parsed as a
natural number when present) and whether `torch.cuda.is_available()`. -/
structure Env where
  local_rank : Option Nat
  cuda_available : Bool
  deriving DecidableEq, Repr

/-- External collaborators: the model-config provider (total layer count
per model identifier) and the outcomes of the i-th train call, the i-th
extraction call, and the evaluate call within one `run()`. -/
structure World where
  numLayersOf : String → Nat
  trainOutcome : Nat → TrainResult
  extractOutcome : Nat → ExtractResult
  evalOutcome : EvalResult

/-- Where `sys.stdout` currently points. -/
inductive StdoutTarget
  | real
  | discard
  deriving DecidableEq, Repr

/-- Value of `logging.WARNING`, the default effective level of the
`transformers` logger. -/
def logging_WARNING : Nat := 30

/-- Value of `logging.ERROR`. -/
def logging_ERROR : Nat := 40

/-- Everything observable about one execution of `run()`. -/
structure RunResult where
  res : Except Err Unit
  trace : List Event
  output : List String
  finalArgs : Args
  stdout : StdoutTarget
  transformersLogLevel : Nat
  deriving Repr

/-- Python truthiness of the walrus test
so that a missing or empty model string skips the block. -/
def truthyModel : Option String → Option String
  | some s => if s = "" then none else some s
  | none => none

/-- Exact message of the layers/stride conflict error in the source. -/
def conflictMsg : String :=
  "Cannot use both --layers and --layer-stride. Please use only one."

/-- Semantics of Python's builtin (start, stop, step) range for a
positive step, as a list of naturals. -/
def rangeStep (start stop step : Nat) : List Nat :=
  if _h : 0 < step ∧ start < stop then
    start :: rangeStep (start + step) stop step
  else
    []
termination_by stop - start
decreasing_by simp_wf; omega

/-- Modelled from the spec: the body of the layer-resolution block of
`run()`.  Queries `AutoConfig.from_pretrained` (here: the provider oracle
in `World`) when a model is given, then raises on the layers/stride
conflict, else materializes the stride range into `args.layers`. -/
def resolveLayersPhase (w : World) (a : Args) : Except Err Args × List Event :=
  match truthyModel a.model with
  | none => (Except.ok a, [])
  | some m =>
    let num_layers := w.numLayersOf m
    if a.layers ≠ [] ∧ 1 < a.layer_stride then
      (Except.error (Err.valueError conflictMsg), [Event.queryModelConfig m])
    else if 1 < a.layer_stride then
      (Except.ok { a with layers := rangeStep 0 num_layers a.layer_stride },
        [Event.queryModelConfig m])
    else
      (Except.ok a, [Event.queryModelConfig m])

/-- The distributed-setup block: if `LOCAL_RANK` is present, initialize
the process group and use it as the local rank, else local rank 0. -/
def rankPhase (env : Env) : Nat × List Event :=
  match env.local_rank with
  | some r => (r, [Event.initProcessGroup])
  | none => (0, [])

/-- The device-defaulting block: if `args.device is None`, pick `cpu`
without CUDA, else the CUDA device indexed by the local rank. -/
def resolveDevicePhase (env : Env) (local_rank : Nat) (a : Args) :
    Args × List Event :=
  match a.device with
  | some _ => (a, [])
  | none =>
    if env.cuda_available then
      ({ a with device := some ("cuda:" ++ toString local_rank) },
        [Event.deviceResolve])
    else
      ({ a with device := some "cpu" }, [Event.deviceResolve])

/-- Modelled from the spec: `args_to_uuid` lives in `elk.files`, which is
not among the provided sources.  The spec says the run identity is a value
deterministically derived from the canonicalized configuration, so we
model it as a pure function of the configuration fields. -/
def args_to_uuid (a : Args) : String :=
  "uuid-" ++ commandName a.command
    ++ "-" ++ (match a.model with | some m => m | none => "None")
    ++ "-" ++ toString a.layers
    ++ "-" ++ toString a.layer_stride
    ++ "-" ++ (match a.device with | some d => d | none => "None")
    ++ "-" ++ toString a.extra

/-- Mapping a train outcome to the `run()`-level result when it is not
intercepted. -/
def trainResultToExcept : TrainResult → Except Err Unit
  | TrainResult.success => Except.ok ()
  | TrainResult.eofError => Except.error Err.eofError
  | TrainResult.fileNotFoundError => Except.error Err.fileNotFoundError
  | TrainResult.other c => Except.error (Err.trainOther c)

/-- Mapping an extraction outcome to the `run()`-level result. -/
def extractResultToExcept : ExtractResult → Except Err Unit
  | ExtractResult.success => Except.ok ()
  | ExtractResult.ioFailure c => Except.error (Err.extractError c)

/-- The command dispatch at the bottom of the `with` block: routes to
extract / train / elicit / eval, with the elicit branch computing the
uuid name, trying train, and on `(EOFError, FileNotFoundError)` running
extraction, an optional barrier, and a second train.  Returns the
result, the emitted events, and the final argument record. -/
def dispatchPhase (env : Env) (w : World) (a : Args) :
    Except Err Unit × List Event × Args :=
  match a.command with
  | Command.extract =>
    (extractResultToExcept (w.extractOutcome 0), [Event.extractCall a.name], a)
  | Command.train =>
    (trainResultToExcept (w.trainOutcome 0), [Event.trainCall a.name], a)
  | Command.elicit =>
    let a2 := { a with name := some (args_to_uuid a) }
    match w.trainOutcome 0 with
    | TrainResult.success => (Except.ok (), [Event.trainCall a2.name], a2)
    | TrainResult.other c =>
      (Except.error (Err.trainOther c), [Event.trainCall a2.name], a2)
    | TrainResult.eofError | TrainResult.fileNotFoundError =>
      match w.extractOutcome 0 with
      | ExtractResult.ioFailure c =>
        (Except.error (Err.extractError c),
          [Event.trainCall a2.name, Event.extractCall a2.name], a2)
      | ExtractResult.success =>
        let evb :=
          if env.local_rank.isSome then
            [Event.trainCall a2.name, Event.extractCall a2.name, Event.barrier]
          else
            [Event.trainCall a2.name, Event.extractCall a2.name]
        (trainResultToExcept (w.trainOutcome 1),
          evb ++ [Event.trainCall a2.name], a2)
  | Command.eval =>
    (match w.evalOutcome with
      | EvalResult.success => Except.ok ()
      | EvalResult.failure c => Except.error (Err.evalError c),
      [Event.evaluateCall], a)
  | cmd => (Except.error (Err.valueError ("Unknown command " ++ commandName cmd)), [], a)

/-- The configuration echo printed at the top of the `with` block:
one line per argument field. -/
def echoLines (a : Args) : List String :=
  ["command: " ++ commandName a.command,
   "model: " ++ (match a.model with | some m => m | none => "None"),
   "layers: " ++ toString a.layers,
   "layer_stride: " ++ toString a.layer_stride,
   "device: " ++ (match a.device with | some d => d | none => "None"),
   "name: " ++ (match a.name with | some n => n | none => "None"),
   "extra: " ++ toString a.extra]

/-- The whole of `run()` after argument parsing: the `list` carve-out,
the transformers import, layer resolution, distributed setup, device
defaulting, and the stdout-gated dispatch. -/
def run (env : Env) (w : World) (args : Args) : RunResult :=
  if args.command = Command.list then
    { res := Except.ok (), trace := [Event.listRuns], output := [],
      finalArgs := args, stdout := StdoutTarget.real,
      transformersLogLevel := logging_WARNING }
  else
    match resolveLayersPhase w args with
    | (Except.error e, evL) =>
      { res := Except.error e, trace := Event.importTransformers :: evL,
        output := [], finalArgs := args, stdout := StdoutTarget.real,
        transformersLogLevel := logging_WARNING }
    | (Except.ok a1, evL) =>
      let rp := rankPhase env
      let local_rank := rp.1
      let dp := resolveDevicePhase env local_rank a1
      let a2 := dp.1
      let redirected : Bool := local_rank ≠ 0
      let evOpen := if redirected then [Event.redirectStdout] else []
      let out := if redirected then [] else echoLines a2
      let evLog := if redirected then [Event.setTransformersLoggerError] else []
      let logLevel := if redirected then logging_ERROR else logging_WARNING
      let d := dispatchPhase env w a2
      let evClose := if redirected then [Event.restoreStdout] else []
      { res := d.1,
        trace := Event.importTransformers :: evL ++ rp.2 ++ dp.2
          ++ evOpen ++ evLog ++ d.2.1 ++ evClose,
        output := out,
        finalArgs := d.2.2,
        stdout := StdoutTarget.real,
        transformersLogLevel := logLevel }

/-- The local rank the process ends up with. -/
def localRankOf (env : Env) : Nat :=
  match env.local_rank with
  | some r => r
  | none => 0

/-- The mutually-exclusive-options condition of the source: a truthy
model together with a non-empty `--layers` and `--layer-stride > 1`. -/
def layersConflict (a : Args) : Prop :=
  (truthyModel a.model).isSome = true ∧ a.layers ≠ [] ∧ 1 < a.layer_stride

instance (a : Args) : Decidable (layersConflict a) := by
  unfold layersConflict; infer_instance

/-- The argument record as it stands right before dispatch (after layer
and device resolution). -/
def preDispatchArgs (env : Env) (w : World) (a : Args) : Args :=
  match resolveLayersPhase w a with
  | (Except.ok a1, _) => (resolveDevicePhase env (rankPhase env).1 a1).1
  | (Except.error _, _) => a

/-- Recognizer for train-call events. -/
def isTrainCall : Event → Bool
  | Event.trainCall _ => true
  | _ => false

/-- Recognizer for extraction-call events. -/
def isExtractCall : Event → Bool
  | Event.extractCall _ => true
  | _ => false

/-- Recognizer for the events of the elicit core: train, extract,
barrier. -/
def isCoreEvent : Event → Bool
  | Event.trainCall _ => true
  | Event.extractCall _ => true
  | Event.barrier => true
  | _ => false

/-- Number of train invocations recorded in a trace. -/
def countTrainCalls (t : List Event) : Nat := (t.filter isTrainCall).length

/-- Number of extraction invocations recorded in a trace. -/
def countExtractCalls (t : List Event) : Nat := (t.filter isExtractCall).length

/-- The subtrace of train / extract / barrier events. -/
def coreTrace (t : List Event) : List Event := t.filter isCoreEvent

/-- All events emitted by a non-list run before the dispatch itself:
the transformers import, the provider query, the process-group setup,
the device default, and the opening of the output gate. -/
def preTrace (env : Env) (w : World) (a : Args) : List Event :=
  match resolveLayersPhase w a with
  | (Except.ok a1, evL) =>
    Event.importTransformers :: (evL ++ (rankPhase env).2
      ++ (resolveDevicePhase env (rankPhase env).1 a1).2
      ++ (if localRankOf env ≠ 0 then [Event.redirectStdout] else [])
      ++ (if localRankOf env ≠ 0 then [Event.setTransformersLoggerError] else []))
  | (Except.error _, evL) => Event.importTransformers :: evL

/-! ### Concrete sample inputs used to instantiate the theorems -/

/-- A single-process environment without CUDA. -/
def env0 : Env := { local_rank := none, cuda_available := false }

/-- A distributed environment: LOCAL_RANK=1, CUDA available. -/
def envD : Env := { local_rank := some 1, cuda_available := true }

/-- A world in which every collaborator call succeeds; gpt-like model with
12 layers. -/
def w0 : World :=
  { numLayersOf := fun _ => 12,
    trainOutcome := fun _ => TrainResult.success,
    extractOutcome := fun _ => ExtractResult.success,
    evalOutcome := EvalResult.success }

/-- A world whose first train call hits a missing cache (FileNotFoundError)
and whose second train call succeeds. -/
def wMiss : World :=
  { w0 with
    trainOutcome := fun i =>
      if i = 0 then TrainResult.fileNotFoundError else TrainResult.success }

/-- A world whose first train call fails with an unrecognized error. -/
def wOther : World :=
  { w0 with
    trainOutcome := fun i =>
      if i = 0 then TrainResult.other 7 else TrainResult.success }

/-- A plain elicit configuration: no model, device preset, no layers. -/
def argsElicit : Args :=
  { command := Command.elicit, model := none, layers := [],
    layer_stride := 1, device := some "cpu", name := none, extra := 0 }

/-- A list-command configuration that would conflict if resolution ran. -/
def argsList : Args :=
  { command := Command.list, model := some "gpt2", layers := [0, 1],
    layer_stride := 3, device := none, name := none, extra := 5 }

/-- An extract configuration with a model, for layer resolution. -/
def argsStride : Args :=
  { command := Command.extract, model := some "gpt2", layers := [],
    layer_stride := 5, device := some "cpu", name := none, extra := 0 }

/-- A configuration with both explicit layers and a stride. -/
def argsBoth : Args :=
  { command := Command.extract, model := some "gpt2", layers := [0],
    layer_stride := 2, device := some "cpu", name := none, extra := 0 }

/-- A configuration with an empty model identifier but both explicit
layers and a stride set. -/
def argsNoModel : Args :=
  { command := Command.train, model := some "", layers := [0],
    layer_stride := 2, device := some "cpu", name := none, extra := 0 }

/-- A train configuration with no device set. -/
def argsDevNone : Args :=
  { command := Command.train, model := none, layers := [],
    layer_stride := 1, device := none, name := none, extra := 0 }

/-! ### Lemmas about `rangeStep` -/

theorem rangeStep_of_le (start stop step : Nat) (h : stop ≤ start) :
    rangeStep start stop step = [] := by
  rw [rangeStep, dif_neg]
  omega

theorem rangeStep_eq_map_aux (s : Nat) (hs : 0 < s) :
    ∀ (n start stop : Nat), stop - start ≤ n →
      rangeStep start stop s
        = (List.range ((stop - start + s - 1) / s)).map (fun i => start + i * s) := by
  intro n
  induction n with
  | zero =>
    intro start stop h
    have h0 : stop - start = 0 := by omega
    rw [rangeStep_of_le start stop s (by omega), h0]
    have : (0 + s - 1) / s = 0 := Nat.div_eq_of_lt (by omega)
    rw [this]
    simp
  | succ n ih =>
    intro start stop h
    by_cases hlt : start < stop
    · rw [rangeStep, dif_pos ⟨hs, hlt⟩, ih (start + s) stop (by omega)]
      have hk : (stop - start + s - 1) / s = (stop - (start + s) + s - 1) / s + 1 := by
        have e1 : stop - start + s - 1 = (stop - start - 1) + s := by omega
        rw [e1, Nat.add_div_right _ hs]
        by_cases hns : s ≤ stop - start
        · have e2 : stop - (start + s) + s - 1 = stop - start - 1 := by omega
          rw [e2]
        · have e2 : stop - (start + s) + s - 1 = s - 1 := by omega
          rw [e2]
          have d1 : (s - 1) / s = 0 := Nat.div_eq_of_lt (by omega)
          have d2 : (stop - start - 1) / s = 0 := Nat.div_eq_of_lt (by omega)
          rw [d1, d2]
      rw [hk, List.range_succ_eq_map, List.map_cons, List.map_map]
      have hfun : ((fun i => start + i * s) ∘ Nat.succ)
          = fun i => start + s + i * s := by
        funext i
        simp only [Function.comp_apply, Nat.succ_eq_add_one]
        ring
      rw [hfun]
      simp
    · have h0 : stop - start = 0 := by omega
      rw [rangeStep_of_le start stop s (by omega), h0]
      have : (0 + s - 1) / s = 0 := Nat.div_eq_of_lt (by omega)
      rw [this]
      simp

theorem rangeStep_zero_eq (s L : Nat) (hs : 0 < s) :
    rangeStep 0 L s = (List.range ((L + s - 1) / s)).map (fun i => i * s) := by
  have h := rangeStep_eq_map_aux s hs L 0 L (by omega)
  simpa using h

theorem rangeStep_length (s L : Nat) (hs : 0 < s) :
    (rangeStep 0 L s).length = (L + s - 1) / s := by
  rw [rangeStep_zero_eq s L hs]
  simp

theorem rangeStep_mem_lt (s L : Nat) (hs : 0 < s) :
    ∀ x ∈ rangeStep 0 L s, x < L := by
  rw [rangeStep_zero_eq s L hs]
  intro x hx
  simp only [List.mem_map, List.mem_range] at hx
  obtain ⟨i, hi, rfl⟩ := hx
  have h2 : (i + 1) * s ≤ (L + s - 1) / s * s := Nat.mul_le_mul_right s hi
  have h3 : (L + s - 1) / s * s ≤ L + s - 1 := Nat.div_mul_le_self _ _
  have h4 : (i + 1) * s = i * s + s := by ring
  omega

/-! ### Structural lemmas about the phases of `run` -/

theorem rankPhase_fst (env : Env) : (rankPhase env).1 = localRankOf env := by
  unfold rankPhase localRankOf
  cases env.local_rank <;> rfl

theorem resolveLayersPhase_error_conflict (w : World) (a : Args) (e : Err)
    (ev : List Event) (h : resolveLayersPhase w a = (Except.error e, ev)) :
    layersConflict a := by
  unfold resolveLayersPhase at h
  split at h
  · simp at h
  · next m heq =>
    split at h
    · next hc => exact ⟨by rw [heq]; rfl, hc⟩
    · split at h <;> simp at h

theorem resolveLayersPhase_ok_fields (w : World) (a a1 : Args) (ev : List Event)
    (h : resolveLayersPhase w a = (Except.ok a1, ev)) :
    a1.command = a.command ∧ a1.model = a.model
      ∧ a1.layer_stride = a.layer_stride ∧ a1.device = a.device
      ∧ a1.name = a.name ∧ a1.extra = a.extra := by
  unfold resolveLayersPhase at h
  split at h
  · simp at h
    rw [← h.1]
    exact ⟨rfl, rfl, rfl, rfl, rfl, rfl⟩
  · split at h
    · simp at h
    · split at h <;> simp at h <;> rw [← h.1] <;>
        exact ⟨rfl, rfl, rfl, rfl, rfl, rfl⟩

theorem resolveDevicePhase_fields (env : Env) (r : Nat) (a : Args) :
    ((resolveDevicePhase env r a).1).command = a.command
      ∧ ((resolveDevicePhase env r a).1).model = a.model
      ∧ ((resolveDevicePhase env r a).1).layers = a.layers
      ∧ ((resolveDevicePhase env r a).1).layer_stride = a.layer_stride
      ∧ ((resolveDevicePhase env r a).1).name = a.name
      ∧ ((resolveDevicePhase env r a).1).extra = a.extra := by
  unfold resolveDevicePhase
  rcases a.device with _ | d
  · by_cases hc : env.cuda_available <;> simp [hc]
  · simp

theorem dispatchPhase_args_fields (env : Env) (w : World) (a : Args) :
    ((dispatchPhase env w a).2.2).command = a.command
      ∧ ((dispatchPhase env w a).2.2).model = a.model
      ∧ ((dispatchPhase env w a).2.2).layers = a.layers
      ∧ ((dispatchPhase env w a).2.2).layer_stride = a.layer_stride
      ∧ ((dispatchPhase env w a).2.2).device = a.device
      ∧ ((dispatchPhase env w a).2.2).extra = a.extra := by
  obtain ⟨cmd, mo, ly, st, dev, nm, ex⟩ := a
  cases cmd
  case elicit =>
    cases ht : w.trainOutcome 0 <;> cases hx : w.extractOutcome 0 <;>
      simp [dispatchPhase, ht, hx]
  all_goals simp [dispatchPhase]

theorem preDispatchArgs_fields (env : Env) (w : World) (a : Args) :
    (preDispatchArgs env w a).command = a.command
      ∧ (preDispatchArgs env w a).model = a.model
      ∧ (preDispatchArgs env w a).layer_stride = a.layer_stride
      ∧ (preDispatchArgs env w a).name = a.name
      ∧ (preDispatchArgs env w a).extra = a.extra := by
  unfold preDispatchArgs
  split
  · next a1 evL hr =>
    obtain ⟨hf1, hf2, hf3, hf4, hf5, hf6⟩ :=
      resolveLayersPhase_ok_fields w a a1 evL hr
    obtain ⟨hd1, hd2, hd3, hd4, hd5, hd6⟩ :=
      resolveDevicePhase_fields env (rankPhase env).1 a1
    exact ⟨hd1.trans hf1, hd2.trans hf2, hd4.trans hf3,
      hd5.trans hf5, hd6.trans hf6⟩
  · exact ⟨rfl, rfl, rfl, rfl, rfl⟩

theorem run_spec (env : Env) (w : World) (args : Args)
    (hnl : args.command ≠ Command.list) (hnc : ¬ layersConflict args) :
    run env w args =
      { res := (dispatchPhase env w (preDispatchArgs env w args)).1,
        trace := preTrace env w args
          ++ (dispatchPhase env w (preDispatchArgs env w args)).2.1
          ++ (if localRankOf env ≠ 0 then [Event.restoreStdout] else []),
        output := if localRankOf env ≠ 0 then []
          else echoLines (preDispatchArgs env w args),
        finalArgs := (dispatchPhase env w (preDispatchArgs env w args)).2.2,
        stdout := StdoutTarget.real,
        transformersLogLevel := if localRankOf env ≠ 0 then logging_ERROR
          else logging_WARNING } := by
  rcases hr : resolveLayersPhase w args with ⟨r1, evL⟩
  rcases r1 with e | a1
  · exact absurd (resolveLayersPhase_error_conflict w args e evL hr) hnc
  · by_cases hlr : localRankOf env = 0 <;>
      simp [run, preTrace, preDispatchArgs, hr, rankPhase_fst, hlr, hnl,
        List.append_assoc]

theorem coreTrace_resolveLayers_events (w : World) (a : Args) :
    coreTrace (resolveLayersPhase w a).2 = [] := by
  unfold coreTrace resolveLayersPhase
  split
  · rfl
  · split
    · rfl
    · split <;> rfl

theorem coreTrace_rankPhase (env : Env) : coreTrace (rankPhase env).2 = [] := by
  unfold coreTrace rankPhase
  cases env.local_rank <;> rfl

theorem coreTrace_devicePhase (env : Env) (r : Nat) (a : Args) :
    coreTrace (resolveDevicePhase env r a).2 = [] := by
  unfold coreTrace resolveDevicePhase
  split
  · rfl
  · split <;> rfl

theorem coreTrace_preTrace (env : Env) (w : World) (a : Args) :
    coreTrace (preTrace env w a) = [] := by
  have hev := coreTrace_resolveLayers_events w a
  unfold coreTrace at hev ⊢
  unfold preTrace
  rcases hr : resolveLayersPhase w a with ⟨r1, evL⟩
  rw [hr] at hev
  rcases r1 with e | a1
  · simpa [isCoreEvent] using hev
  · have hrk := coreTrace_rankPhase env
    have hdv := coreTrace_devicePhase env (rankPhase env).1 a1
    unfold coreTrace at hrk hdv
    by_cases hlr : localRankOf env = 0 <;>
      simp [hlr, isCoreEvent, List.filter_append, hev, hrk, hdv]

theorem coreTrace_run (env : Env) (w : World) (args : Args)
    (hnl : args.command ≠ Command.list) (hnc : ¬ layersConflict args) :
    coreTrace (run env w args).trace
      = coreTrace (dispatchPhase env w (preDispatchArgs env w args)).2.1 := by
  rw [run_spec env w args hnl hnc]
  have hp := coreTrace_preTrace env w args
  unfold coreTrace at hp ⊢
  by_cases hlr : localRankOf env = 0 <;>
    simp [hlr, List.filter_append, hp, isCoreEvent]

theorem countTrainCalls_coreTrace (t : List Event) :
    countTrainCalls (coreTrace t) = countTrainCalls t := by
  unfold countTrainCalls coreTrace
  rw [List.filter_filter]
  have hf : (fun a => isTrainCall a && isCoreEvent a) = isTrainCall := by
    funext e
    cases e <;> rfl
  rw [hf]

theorem countExtractCalls_coreTrace (t : List Event) :
    countExtractCalls (coreTrace t) = countExtractCalls t := by
  unfold countExtractCalls coreTrace
  rw [List.filter_filter]
  have hf : (fun a => isExtractCall a && isCoreEvent a) = isExtractCall := by
    funext e
    cases e <;> rfl
  rw [hf]

theorem countTrainCalls_run (env : Env) (w : World) (args : Args)
    (hnl : args.command ≠ Command.list) (hnc : ¬ layersConflict args) :
    countTrainCalls (run env w args).trace
      = countTrainCalls (dispatchPhase env w (preDispatchArgs env w args)).2.1 := by
  rw [← countTrainCalls_coreTrace, coreTrace_run env w args hnl hnc,
    countTrainCalls_coreTrace]

theorem countExtractCalls_run (env : Env) (w : World) (args : Args)
    (hnl : args.command ≠ Command.list) (hnc : ¬ layersConflict args) :
    countExtractCalls (run env w args).trace
      = countExtractCalls (dispatchPhase env w (preDispatchArgs env w args)).2.1 := by
  rw [← countExtractCalls_coreTrace, coreTrace_run env w args hnl hnc,
    countExtractCalls_coreTrace]

theorem dispatchPhase_elicit_miss (env : Env) (w : World) (a : Args)
    (ha : a.command = Command.elicit)
    (h1 : w.trainOutcome 0 = TrainResult.eofError
      ∨ w.trainOutcome 0 = TrainResult.fileNotFoundError)
    (hx : w.extractOutcome 0 = ExtractResult.success) :
    dispatchPhase env w a =
      (trainResultToExcept (w.trainOutcome 1),
        (if env.local_rank.isSome then
          [Event.trainCall (some (args_to_uuid a)),
           Event.extractCall (some (args_to_uuid a)), Event.barrier]
         else
          [Event.trainCall (some (args_to_uuid a)),
           Event.extractCall (some (args_to_uuid a))])
          ++ [Event.trainCall (some (args_to_uuid a))],
        { a with name := some (args_to_uuid a) }) := by
  rcases h1 with h1 | h1 <;> simp [dispatchPhase, ha, h1, hx]

theorem dispatchPhase_elicit_other (env : Env) (w : World) (a : Args) (c : Nat)
    (ha : a.command = Command.elicit)
    (h1 : w.trainOutcome 0 = TrainResult.other c) :
    dispatchPhase env w a =
      (Except.error (Err.trainOther c),
        [Event.trainCall (some (args_to_uuid a))],
        { a with name := some (args_to_uuid a) }) := by
  simp [dispatchPhase, ha, h1]

theorem dispatchPhase_elicit_names (env : Env) (w : World) (a : Args)
    (ha : a.command = Command.elicit) :
    ∀ nm : Option String,
      Event.trainCall nm ∈ (dispatchPhase env w a).2.1
        ∨ Event.extractCall nm ∈ (dispatchPhase env w a).2.1 →
      nm = some (args_to_uuid a) := by
  intro nm hmem
  rcases ht : w.trainOutcome 0 with _ | _ | _ | c <;>
    rcases hx : w.extractOutcome 0 with _ | c2 <;>
    rcases hs : env.local_rank.isSome <;>
    simp [dispatchPhase, ha, ht, hx, hs] at hmem <;>
    tauto

theorem dispatchPhase_no_redirect (env : Env) (w : World) (a : Args) :
    Event.redirectStdout ∉ (dispatchPhase env w a).2.1 := by
  unfold dispatchPhase
  repeat' split
  all_goals simp

theorem dispatchPhase_no_query (env : Env) (w : World) (a : Args) (m : String) :
    Event.queryModelConfig m ∉ (dispatchPhase env w a).2.1 := by
  unfold dispatchPhase
  repeat' split
  all_goals simp

theorem resolveLayersPhase_none (w : World) (a : Args)
    (hm : truthyModel a.model = none) :
    resolveLayersPhase w a = (Except.ok a, []) := by
  unfold resolveLayersPhase
  rw [hm]

theorem mem_resolveLayers_events (w : World) (a : Args) (e : Event)
    (h : e ∈ (resolveLayersPhase w a).2) :
    ∃ m, e = Event.queryModelConfig m := by
  unfold resolveLayersPhase at h
  split at h
  · simp at h
  · next m heq =>
    split at h
    · simp at h
      exact ⟨m, h⟩
    · split at h <;> simp at h <;> exact ⟨m, h⟩

theorem mem_rankPhase_events (env : Env) (e : Event)
    (h : e ∈ (rankPhase env).2) : e = Event.initProcessGroup := by
  unfold rankPhase at h
  split at h
  · simp at h
    exact h
  · simp at h

theorem mem_devicePhase_events (env : Env) (r : Nat) (a : Args) (e : Event)
    (h : e ∈ (resolveDevicePhase env r a).2) : e = Event.deviceResolve := by
  unfold resolveDevicePhase at h
  split at h
  · simp at h
  · split at h <;> simp at h <;> exact h

theorem mem_preTrace (env : Env) (w : World) (a : Args) (e : Event)
    (h : e ∈ preTrace env w a) :
    e = Event.importTransformers ∨ (∃ m, e = Event.queryModelConfig m)
      ∨ e = Event.initProcessGroup ∨ e = Event.deviceResolve
      ∨ (e = Event.redirectStdout ∧ localRankOf env ≠ 0)
      ∨ (e = Event.setTransformersLoggerError ∧ localRankOf env ≠ 0) := by
  unfold preTrace at h
  split at h
  · next a1 evL heq =>
    simp only [List.mem_cons, List.mem_append, or_assoc] at h
    rcases h with h | h | h | h | h | h
    · exact Or.inl h
    · refine Or.inr (Or.inl ?_)
      apply mem_resolveLayers_events w a
      rw [heq]
      exact h
    · exact Or.inr (Or.inr (Or.inl (mem_rankPhase_events env e h)))
    · exact Or.inr (Or.inr (Or.inr (Or.inl
        (mem_devicePhase_events env (rankPhase env).1 a1 e h))))
    · revert h
      split
      · next hlr =>
        intro h
        simp at h
        exact Or.inr (Or.inr (Or.inr (Or.inr (Or.inl ⟨h, hlr⟩))))
      · intro h
        simp at h
    · revert h
      split
      · next hlr =>
        intro h
        simp at h
        exact Or.inr (Or.inr (Or.inr (Or.inr (Or.inr ⟨h, hlr⟩))))
      · intro h
        simp at h
  · next e0 evL heq =>
    simp only [List.mem_cons] at h
    rcases h with h | h
    · exact Or.inl h
    · refine Or.inr (Or.inl ?_)
      apply mem_resolveLayers_events w a
      rw [heq]
      exact h

theorem preTrace_no_train (env : Env) (w : World) (a : Args)
    (nm : Option String) : Event.trainCall nm ∉ preTrace env w a := by
  intro h
  rcases mem_preTrace env w a _ h with h | ⟨m, h⟩ | h | h | ⟨h, _⟩ | ⟨h, _⟩ <;>
    simp at h

theorem preTrace_no_extract (env : Env) (w : World) (a : Args)
    (nm : Option String) : Event.extractCall nm ∉ preTrace env w a := by
  intro h
  rcases mem_preTrace env w a _ h with h | ⟨m, h⟩ | h | h | ⟨h, _⟩ | ⟨h, _⟩ <;>
    simp at h

theorem preTrace_root_no_redirect (env : Env) (w : World) (a : Args)
    (hlr : localRankOf env = 0) : Event.redirectStdout ∉ preTrace env w a := by
  intro h
  rcases mem_preTrace env w a _ h with h | ⟨m, h⟩ | h | h | ⟨h, hl⟩ | ⟨h, hl⟩ <;>
    simp at h
  exact hl hlr

theorem preTrace_none_no_query (env : Env) (w : World) (a : Args)
    (hm : truthyModel a.model = none) (m : String) :
    Event.queryModelConfig m ∉ preTrace env w a := by
  intro h
  unfold preTrace at h
  rw [resolveLayersPhase_none w a hm] at h
  simp only [List.mem_cons, List.mem_append, or_assoc, List.not_mem_nil,
    false_or] at h
  rcases h with h | h | h | h | h
  · simp at h
  · exact absurd (mem_rankPhase_events env _ h) (by simp)
  · exact absurd (mem_devicePhase_events env (rankPhase env).1 a _ h) (by simp)
  · revert h
    split <;> simp
  · revert h
    split <;> simp

theorem mem_restore_ite (P : Prop) [Decidable P] (e : Event)
    (h : e ∈ (if P then [Event.restoreStdout] else [])) :
    e = Event.restoreStdout := by
  split at h <;> simp at h
  exact h

theorem trainResultToExcept_ne_valueError (t : TrainResult) (msg : String) :
    trainResultToExcept t ≠ Except.error (Err.valueError msg) := by
  cases t <;> simp [trainResultToExcept]

theorem unknown_command_msg_ne (s : String) :
    ("Unknown command " ++ s : String) ≠ conflictMsg := by
  intro h
  have h2 : ("Unknown command " ++ s).data = conflictMsg.data := by
    rw [h]
  rw [String.data_append] at h2
  have h3 : ("Unknown command ".data ++ s.data).head? = conflictMsg.data.head? := by
    rw [h2]
  simp [conflictMsg] at h3

theorem dispatchPhase_res_not_conflict (env : Env) (w : World) (a : Args) :
    (dispatchPhase env w a).1 ≠ Except.error (Err.valueError conflictMsg) := by
  unfold dispatchPhase
  rcases hc : a.command with _ | _ | _ | _ | _ | s <;>
    simp [hc, trainResultToExcept_ne_valueError]
  · cases w.extractOutcome 0 <;> simp [extractResultToExcept]
  · cases ht : w.trainOutcome 0 <;> cases hx : w.extractOutcome 0 <;>
      cases ht2 : w.trainOutcome 1 <;>
      simp [ht, hx, ht2, trainResultToExcept, extractResultToExcept]
  · cases w.evalOutcome <;> simp
  · exact fun heq => unknown_command_msg_ne "list" heq
  · exact fun heq => unknown_command_msg_ne s heq

theorem resolveLayersPhase_stride (w : World) (a : Args) (m : String)
    (hm : truthyModel a.model = some m) (hl : a.layers = [])
    (hs : 1 < a.layer_stride) :
    resolveLayersPhase w a
      = (Except.ok { a with layers := rangeStep 0 (w.numLayersOf m) a.layer_stride },
         [Event.queryModelConfig m]) := by
  unfold resolveLayersPhase
  rw [hm]
  simp [hl, hs]

theorem resolveLayersPhase_nostride (w : World) (a : Args)
    (hs : ¬ 1 < a.layer_stride) :
    (resolveLayersPhase w a).1 = Except.ok a := by
  unfold resolveLayersPhase
  rcases hm : truthyModel a.model with _ | m
  · rfl
  · simp [hs]

theorem resolveLayersPhase_conflict (w : World) (a : Args)
    (h : layersConflict a) :
    (resolveLayersPhase w a).1 = Except.error (Err.valueError conflictMsg) := by
  obtain ⟨h1, h2, h3⟩ := h
  rcases hm : truthyModel a.model with _ | m
  · rw [hm] at h1
    simp at h1
  · unfold resolveLayersPhase
    rw [hm]
    simp [h2, h3]

/-! ### The claims -/

/-- C6: for every invocation of the list command, the run enumerates the
cached runs and returns immediately: the whole trace is the single
ListRuns event, the run succeeds, and the configuration is untouched, so
the distributed group is never initialized, device resolution never
happens, and the model-config provider is never queried. -/
theorem list_fast_path (env : Env) (w : World) (args : Args)
    (h : args.command = Command.list) :
    (run env w args).trace = [Event.listRuns]
      ∧ (run env w args).res = Except.ok ()
      ∧ (run env w args).finalArgs = args
      ∧ Event.initProcessGroup ∉ (run env w args).trace
      ∧ Event.deviceResolve ∉ (run env w args).trace
      ∧ (∀ m, Event.queryModelConfig m ∉ (run env w args).trace) := by
  simp [run, h]

/-- Witness: the list fast path at a concrete configuration that would
conflict if layer resolution ran. -/
theorem list_fast_path_witness :
    (run env0 w0 argsList).trace = [Event.listRuns]
      ∧ (run env0 w0 argsList).res = Except.ok ()
      ∧ (run env0 w0 argsList).finalArgs = argsList
      ∧ Event.initProcessGroup ∉ (run env0 w0 argsList).trace
      ∧ Event.deviceResolve ∉ (run env0 w0 argsList).trace
      ∧ (∀ m, Event.queryModelConfig m ∉ (run env0 w0 argsList).trace) :=
  list_fast_path env0 w0 argsList rfl

/-- C1: for an elicit invocation whose first train call raises one of the
two recognized missing-input signals (EOFError / FileNotFoundError) and
whose extraction succeeds, train is invoked exactly twice and extraction
exactly once, and the run's result is exactly the outcome of the second
train call mapped to the top level: any failure of the second call,
including the same missing-input condition, propagates unmodified with no
second extraction fallback. -/
theorem elicit_cache_miss_retry (env : Env) (w : World) (args : Args)
    (hcmd : args.command = Command.elicit)
    (hnc : ¬ layersConflict args)
    (h1 : w.trainOutcome 0 = TrainResult.eofError
      ∨ w.trainOutcome 0 = TrainResult.fileNotFoundError)
    (hx : w.extractOutcome 0 = ExtractResult.success) :
    countTrainCalls (run env w args).trace = 2
      ∧ countExtractCalls (run env w args).trace = 1
      ∧ (run env w args).res = trainResultToExcept (w.trainOutcome 1) := by
  have hnl : args.command ≠ Command.list := by
    rw [hcmd]
    simp
  have hpc : (preDispatchArgs env w args).command = Command.elicit := by
    rw [(preDispatchArgs_fields env w args).1, hcmd]
  have hd := dispatchPhase_elicit_miss env w (preDispatchArgs env w args) hpc h1 hx
  refine ⟨?_, ?_, ?_⟩
  · rw [countTrainCalls_run env w args hnl hnc, hd]
    cases hs : env.local_rank.isSome <;>
      simp [hs, countTrainCalls, isTrainCall]
  · rw [countExtractCalls_run env w args hnl hnc, hd]
    cases hs : env.local_rank.isSome <;>
      simp [hs, countExtractCalls, isExtractCall]
  · rw [run_spec env w args hnl hnc, hd]

/-- Witness: a distributed elicit run whose first train call hits
FileNotFoundError and whose second succeeds. -/
theorem elicit_cache_miss_retry_witness :
    countTrainCalls (run envD wMiss argsElicit).trace = 2
      ∧ countExtractCalls (run envD wMiss argsElicit).trace = 1
      ∧ (run envD wMiss argsElicit).res
          = trainResultToExcept (wMiss.trainOutcome 1) :=
  elicit_cache_miss_retry envD wMiss argsElicit rfl (by decide)
    (Or.inr (by decide)) (by decide)

/-- C2: for an elicit invocation whose first train call raises anything
other than the two recognized missing-input signals, the error propagates
immediately: train runs exactly once, extraction never runs, and the
barrier is never reached. -/
theorem elicit_foreign_error_fatal (env : Env) (w : World) (args : Args)
    (c : Nat) (hcmd : args.command = Command.elicit)
    (hnc : ¬ layersConflict args)
    (h1 : w.trainOutcome 0 = TrainResult.other c) :
    (run env w args).res = Except.error (Err.trainOther c)
      ∧ countTrainCalls (run env w args).trace = 1
      ∧ countExtractCalls (run env w args).trace = 0
      ∧ Event.barrier ∉ (run env w args).trace := by
  have hnl : args.command ≠ Command.list := by
    rw [hcmd]
    simp
  have hpc : (preDispatchArgs env w args).command = Command.elicit := by
    rw [(preDispatchArgs_fields env w args).1, hcmd]
  have hd := dispatchPhase_elicit_other env w (preDispatchArgs env w args) c hpc h1
  refine ⟨?_, ?_, ?_, ?_⟩
  · rw [run_spec env w args hnl hnc, hd]
  · rw [countTrainCalls_run env w args hnl hnc, hd]
    simp [countTrainCalls, isTrainCall]
  · rw [countExtractCalls_run env w args hnl hnc, hd]
    simp [countExtractCalls, isExtractCall]
  · intro hb
    have hbc : Event.barrier ∈ coreTrace (run env w args).trace := by
      unfold coreTrace
      exact List.mem_filter.mpr ⟨hb, rfl⟩
    rw [coreTrace_run env w args hnl hnc, hd] at hbc
    simp [coreTrace, isCoreEvent] at hbc

/-- Witness: a distributed elicit run whose first train call fails with an
unrecognized error code. -/
theorem elicit_foreign_error_fatal_witness :
    (run envD wOther argsElicit).res = Except.error (Err.trainOther 7)
      ∧ countTrainCalls (run envD wOther argsElicit).trace = 1
      ∧ countExtractCalls (run envD wOther argsElicit).trace = 0
      ∧ Event.barrier ∉ (run envD wOther argsElicit).trace :=
  elicit_foreign_error_fatal envD wOther argsElicit 7 rfl (by decide)
    (by decide)

/-- C3: in the elicit fallback path, the core event order is train,
extract, barrier, retrain when a distributed group is initialized, and
train, extract, retrain (no barrier) when it is not: the barrier is
called after extraction completes and before the second train call
begins, and only with a group. -/
theorem elicit_barrier_ordering (env : Env) (w : World) (args : Args)
    (hcmd : args.command = Command.elicit)
    (hnc : ¬ layersConflict args)
    (h1 : w.trainOutcome 0 = TrainResult.eofError
      ∨ w.trainOutcome 0 = TrainResult.fileNotFoundError)
    (hx : w.extractOutcome 0 = ExtractResult.success) :
    (env.local_rank.isSome = true →
      coreTrace (run env w args).trace
        = [Event.trainCall (some (args_to_uuid (preDispatchArgs env w args))),
           Event.extractCall (some (args_to_uuid (preDispatchArgs env w args))),
           Event.barrier,
           Event.trainCall (some (args_to_uuid (preDispatchArgs env w args)))])
    ∧ (env.local_rank = none →
      coreTrace (run env w args).trace
        = [Event.trainCall (some (args_to_uuid (preDispatchArgs env w args))),
           Event.extractCall (some (args_to_uuid (preDispatchArgs env w args))),
           Event.trainCall (some (args_to_uuid (preDispatchArgs env w args)))]) := by
  have hnl : args.command ≠ Command.list := by
    rw [hcmd]
    simp
  have hpc : (preDispatchArgs env w args).command = Command.elicit := by
    rw [(preDispatchArgs_fields env w args).1, hcmd]
  have hd := dispatchPhase_elicit_miss env w (preDispatchArgs env w args) hpc h1 hx
  constructor
  · intro hs
    rw [coreTrace_run env w args hnl hnc, hd]
    simp [hs, coreTrace, isCoreEvent]
  · intro hn
    rw [coreTrace_run env w args hnl hnc, hd]
    simp [hn, coreTrace, isCoreEvent]

/-- Witness: the barrier ordering at a concrete distributed cache-miss
run. -/
theorem elicit_barrier_ordering_witness :
    coreTrace (run envD wMiss argsElicit).trace
      = [Event.trainCall (some (args_to_uuid (preDispatchArgs envD wMiss argsElicit))),
         Event.extractCall (some (args_to_uuid (preDispatchArgs envD wMiss argsElicit))),
         Event.barrier,
         Event.trainCall (some (args_to_uuid (preDispatchArgs envD wMiss argsElicit)))] :=
  (elicit_barrier_ordering envD wMiss argsElicit rfl (by decide)
    (Or.inr (by decide)) (by decide)).1 (by decide)

/-- C9: in every elicit run, every train call and every extract call in
the trace addresses one and the same identity: the uuid computed once
from the configuration as it stands before dispatch. -/
theorem elicit_identity_shared (env : Env) (w : World) (args : Args)
    (hcmd : args.command = Command.elicit)
    (hnc : ¬ layersConflict args) :
    ∀ nm : Option String,
      Event.trainCall nm ∈ (run env w args).trace
        ∨ Event.extractCall nm ∈ (run env w args).trace →
      nm = some (args_to_uuid (preDispatchArgs env w args)) := by
  have hnl : args.command ≠ Command.list := by
    rw [hcmd]
    simp
  have hpc : (preDispatchArgs env w args).command = Command.elicit := by
    rw [(preDispatchArgs_fields env w args).1, hcmd]
  intro nm hmem
  apply dispatchPhase_elicit_names env w (preDispatchArgs env w args) hpc nm
  rw [run_spec env w args hnl hnc] at hmem
  simp only [List.mem_append, or_assoc] at hmem
  rcases hmem with h | h | h | h | h | h
  · exact absurd h (preTrace_no_train env w args nm)
  · exact Or.inl h
  · have h2 := mem_restore_ite _ _ h
    simp at h2
  · exact absurd h (preTrace_no_extract env w args nm)
  · exact Or.inr h
  · have h2 := mem_restore_ite _ _ h
    simp at h2

/-- Witness: the shared identity at a concrete distributed cache-miss
run, with a train call carrying that identity present in the trace. -/
theorem elicit_identity_shared_witness :
    Event.trainCall (some (args_to_uuid (preDispatchArgs envD wMiss argsElicit)))
        ∈ (run envD wMiss argsElicit).trace
      ∧ some (args_to_uuid (preDispatchArgs envD wMiss argsElicit))
          = some (args_to_uuid (preDispatchArgs envD wMiss argsElicit)) :=
  ⟨by decide,
    elicit_identity_shared envD wMiss argsElicit rfl (by decide)
      (some (args_to_uuid (preDispatchArgs envD wMiss argsElicit)))
      (Or.inl (by decide))⟩

/-- C5: with a truthy model identifier, stride greater than one and no
explicit layers, the resolved layer list is exactly 0, s, 2s, dots, with
every entry below the provider's total layer count L and exactly
ceil(L/s) = (L+s-1)/s entries; and whenever stride is not greater than
one the layer spec is left exactly as configured. -/
theorem stride_layer_resolution (env : Env) (w : World) (args : Args)
    (m : String) (hm : truthyModel args.model = some m)
    (hnl : args.command ≠ Command.list) :
    (args.layers = [] → 1 < args.layer_stride →
      (run env w args).finalArgs.layers
          = (List.range ((w.numLayersOf m + args.layer_stride - 1)
              / args.layer_stride)).map (fun i => i * args.layer_stride)
        ∧ (∀ x ∈ (run env w args).finalArgs.layers, x < w.numLayersOf m)
        ∧ (run env w args).finalArgs.layers.length
            = (w.numLayersOf m + args.layer_stride - 1) / args.layer_stride)
    ∧ (¬ 1 < args.layer_stride →
        (run env w args).finalArgs.layers = args.layers) := by
  constructor
  · intro hl hs
    have hnc : ¬ layersConflict args := fun hcf => hcf.2.1 hl
    have hrl := resolveLayersPhase_stride w args m hm hl hs
    have hfl : (run env w args).finalArgs.layers
        = rangeStep 0 (w.numLayersOf m) args.layer_stride := by
      have h1 := (dispatchPhase_args_fields env w (preDispatchArgs env w args)).2.2.1
      have h2 : (preDispatchArgs env w args).layers
          = rangeStep 0 (w.numLayersOf m) args.layer_stride := by
        unfold preDispatchArgs
        rw [hrl]
        have h3 := (resolveDevicePhase_fields env (rankPhase env).1
          { args with layers := rangeStep 0 (w.numLayersOf m) args.layer_stride }).2.2.1
        simpa using h3
      rw [run_spec env w args hnl hnc]
      show (dispatchPhase env w (preDispatchArgs env w args)).2.2.layers = _
      rw [h1, h2]
    have hpos : 0 < args.layer_stride := by omega
    refine ⟨?_, ?_, ?_⟩
    · rw [hfl, rangeStep_zero_eq _ _ hpos]
    · rw [hfl]
      exact rangeStep_mem_lt _ _ hpos
    · rw [hfl, rangeStep_length _ _ hpos]
  · intro hs
    have hnc : ¬ layersConflict args := fun hcf => hs hcf.2.2
    have hok := resolveLayersPhase_nostride w args hs
    rcases hr : resolveLayersPhase w args with ⟨r1, ev⟩
    rw [hr] at hok
    simp at hok
    subst hok
    have h1 := (dispatchPhase_args_fields env w (preDispatchArgs env w args)).2.2.1
    have h2 : (preDispatchArgs env w args).layers = args.layers := by
      unfold preDispatchArgs
      rw [hr]
      exact (resolveDevicePhase_fields env (rankPhase env).1 args).2.2.1
    rw [run_spec env w args hnl hnc]
    show (dispatchPhase env w (preDispatchArgs env w args)).2.2.layers = _
    rw [h1, h2]

/-- Witness: stride resolution at stride 5 over 12 layers yields the
three indices 0, 5, 10. -/
theorem stride_layer_resolution_witness :
    (run env0 w0 argsStride).finalArgs.layers = [0, 5, 10]
      ∧ (run env0 w0 argsStride).finalArgs.layers.length = 3 := by
  have h := (stride_layer_resolution env0 w0 argsStride "gpt2" (by decide)
    (by decide)).1 (by decide) (by decide)
  exact ⟨h.1.trans (by decide), h.2.2.trans (by decide)⟩

/-- C10: when the configuration carries no truthy model identifier
(absent or empty string), the whole layer-resolution step is skipped:
the provider is never queried, the layer spec is left exactly as
configured, and no configuration-conflict error is raised even though
both an explicit layer list and a stride are set. -/
theorem no_model_skips_resolution (env : Env) (w : World) (args : Args)
    (hm : truthyModel args.model = none)
    (_hl : args.layers ≠ []) (_hs : 1 < args.layer_stride) :
    (∀ m, Event.queryModelConfig m ∉ (run env w args).trace)
      ∧ (run env w args).finalArgs.layers = args.layers
      ∧ (run env w args).res ≠ Except.error (Err.valueError conflictMsg) := by
  by_cases hcl : args.command = Command.list
  · refine ⟨?_, ?_, ?_⟩ <;> simp [run, hcl]
  · have hnc : ¬ layersConflict args := by
      simp [layersConflict, hm]
    refine ⟨?_, ?_, ?_⟩
    · intro m hmem
      rw [run_spec env w args hcl hnc] at hmem
      simp only [List.mem_append, or_assoc] at hmem
      rcases hmem with h | h | h
      · exact preTrace_none_no_query env w args hm m h
      · exact dispatchPhase_no_query env w (preDispatchArgs env w args) m h
      · have h2 := mem_restore_ite _ _ h
        simp at h2
    · have h1 := (dispatchPhase_args_fields env w (preDispatchArgs env w args)).2.2.1
      have h2 : (preDispatchArgs env w args).layers = args.layers := by
        unfold preDispatchArgs
        rw [resolveLayersPhase_none w args hm]
        exact (resolveDevicePhase_fields env (rankPhase env).1 args).2.2.1
      rw [run_spec env w args hcl hnc]
      show (dispatchPhase env w (preDispatchArgs env w args)).2.2.layers = _
      rw [h1, h2]
    · rw [run_spec env w args hcl hnc]
      show (dispatchPhase env w (preDispatchArgs env w args)).1 ≠ _
      exact dispatchPhase_res_not_conflict env w (preDispatchArgs env w args)

/-- Witness: a train run whose model is the empty string, with both
explicit layers and a stride set: no query, no conflict, layers kept. -/
theorem no_model_skips_resolution_witness :
    (∀ m, Event.queryModelConfig m ∉ (run env0 w0 argsNoModel).trace)
      ∧ (run env0 w0 argsNoModel).finalArgs.layers = argsNoModel.layers
      ∧ (run env0 w0 argsNoModel).res
          ≠ Except.error (Err.valueError conflictMsg) :=
  no_model_skips_resolution env0 w0 argsNoModel (by decide) (by decide)
    (by decide)

/-- C4 is refuted at two concrete inputs.  With a model present and both
explicit layers and stride set, the run does raise the conflict error but
the model-config provider has already been queried, against the claim
that it never is.  And with the model absent while both options are still
set, no conflict error is raised at all. -/
theorem layers_stride_conflict_counterexample :
    (Event.queryModelConfig "gpt2" ∈ (run env0 w0 argsBoth).trace
      ∧ (run env0 w0 argsBoth).res = Except.error (Err.valueError conflictMsg))
    ∧ (run env0 w0 argsNoModel).res
        ≠ Except.error (Err.valueError conflictMsg) := by
  decide

/-- C4 amended: when a truthy model identifier is present together with a
non-empty explicit layer list and stride greater than one, the run fails
with the configuration-conflict error and performs no further work — the
configuration is unchanged, no train or extract call happens, and the
trace stops right after the provider query — but the model-config
provider is queried once before the conflict check. -/
theorem layers_stride_conflict_amended (env : Env) (w : World) (args : Args)
    (m : String) (hm : truthyModel args.model = some m)
    (hl : args.layers ≠ []) (hs : 1 < args.layer_stride)
    (hnl : args.command ≠ Command.list) :
    (run env w args).res = Except.error (Err.valueError conflictMsg)
      ∧ (run env w args).finalArgs = args
      ∧ countTrainCalls (run env w args).trace = 0
      ∧ countExtractCalls (run env w args).trace = 0
      ∧ (run env w args).trace
          = [Event.importTransformers, Event.queryModelConfig m] := by
  have hcf : resolveLayersPhase w args
      = (Except.error (Err.valueError conflictMsg), [Event.queryModelConfig m]) := by
    unfold resolveLayersPhase
    rw [hm]
    simp [hl, hs]
  refine ⟨?_, ?_, ?_, ?_, ?_⟩ <;>
    simp [run, hnl, hcf, countTrainCalls, countExtractCalls, isTrainCall,
      isExtractCall]

/-- Witness: the amended conflict behavior at the concrete both-set
configuration. -/
theorem layers_stride_conflict_amended_witness :
    (run env0 w0 argsBoth).res = Except.error (Err.valueError conflictMsg)
      ∧ (run env0 w0 argsBoth).finalArgs = argsBoth
      ∧ countTrainCalls (run env0 w0 argsBoth).trace = 0
      ∧ countExtractCalls (run env0 w0 argsBoth).trace = 0
      ∧ (run env0 w0 argsBoth).trace
          = [Event.importTransformers, Event.queryModelConfig "gpt2"] :=
  layers_stride_conflict_amended env0 w0 argsBoth "gpt2" (by decide)
    (by decide) (by decide) (by decide)

/-- C7 is refuted at a concrete input: a train run with no device set
comes back with a mutated configuration — the device field has been
filled in, so the configuration record is not immutable. -/
theorem config_immutable_counterexample :
    (run env0 w0 argsDevNone).finalArgs ≠ argsDevNone
      ∧ (run env0 w0 argsDevNone).finalArgs.device = some "cpu"
      ∧ argsDevNone.device = none := by
  decide

/-- C7 amended: the pipeline mutates only three configuration fields:
the layer list (stride resolution), the device (defaulting), and the
name (the elicit identity); the command, model, stride, and every other
field are preserved by every run. -/
theorem config_mutation_frame (env : Env) (w : World) (args : Args) :
    ((run env w args).finalArgs).command = args.command
      ∧ ((run env w args).finalArgs).model = args.model
      ∧ ((run env w args).finalArgs).layer_stride = args.layer_stride
      ∧ ((run env w args).finalArgs).extra = args.extra := by
  by_cases hcl : args.command = Command.list
  · simp [run, hcl]
  · rcases hr : resolveLayersPhase w args with ⟨r1, evL⟩
    rcases r1 with e | a1
    · refine ⟨?_, ?_, ?_, ?_⟩ <;> simp [run, hcl, hr]
    · have hnc : ¬ layersConflict args := by
        intro hcf
        have hc2 := resolveLayersPhase_conflict w args hcf
        rw [hr] at hc2
        simp at hc2
      have hd := dispatchPhase_args_fields env w (preDispatchArgs env w args)
      have hp := preDispatchArgs_fields env w args
      refine ⟨?_, ?_, ?_, ?_⟩ <;> rw [run_spec env w args hcl hnc]
      · show (dispatchPhase env w (preDispatchArgs env w args)).2.2.command = _
        rw [hd.1, hp.1]
      · show (dispatchPhase env w (preDispatchArgs env w args)).2.2.model = _
        rw [hd.2.1, hp.2.1]
      · show (dispatchPhase env w (preDispatchArgs env w args)).2.2.layer_stride = _
        rw [hd.2.2.2.1, hp.2.2.1]
      · show (dispatchPhase env w (preDispatchArgs env w args)).2.2.extra = _
        rw [hd.2.2.2.2.2, hp.2.2.2.2]

/-- C8: on a non-root rank, the visible standard output of the run is
empty, the stdout target is back to the real stream at the end whatever
the outcome, the transformers log level ends at ERROR and stays there,
and the trace shows the gate scoping: redirect, then the logger raise,
then the whole dispatch, then the restore as the final event.  On the
root rank the output is exactly the configuration echo, the log level is
untouched, and no redirect ever happens. -/
theorem output_gate (env : Env) (w : World) (args : Args)
    (hnl : args.command ≠ Command.list) (hnc : ¬ layersConflict args) :
    (localRankOf env ≠ 0 →
      (run env w args).output = []
        ∧ (run env w args).stdout = StdoutTarget.real
        ∧ (run env w args).transformersLogLevel = logging_ERROR
        ∧ ∃ p, (run env w args).trace
            = p ++ Event.redirectStdout :: Event.setTransformersLoggerError ::
                ((dispatchPhase env w (preDispatchArgs env w args)).2.1
                  ++ [Event.restoreStdout]))
    ∧ (localRankOf env = 0 →
      (run env w args).output = echoLines (preDispatchArgs env w args)
        ∧ (run env w args).stdout = StdoutTarget.real
        ∧ (run env w args).transformersLogLevel = logging_WARNING
        ∧ Event.redirectStdout ∉ (run env w args).trace) := by
  constructor
  · intro hlr
    have htr : (run env w args).trace
        = preTrace env w args
          ++ (dispatchPhase env w (preDispatchArgs env w args)).2.1
          ++ [Event.restoreStdout] := by
      rw [run_spec env w args hnl hnc]
      simp [hlr]
    refine ⟨?_, ?_, ?_, ?_⟩
    · rw [run_spec env w args hnl hnc]
      simp [hlr]
    · rw [run_spec env w args hnl hnc]
    · rw [run_spec env w args hnl hnc]
      simp [hlr]
    · rw [htr]
      unfold preTrace
      rcases hr : resolveLayersPhase w args with ⟨r1, evL⟩
      rcases r1 with e | a1
      · exact absurd (resolveLayersPhase_error_conflict w args e evL hr) hnc
      · refine ⟨Event.importTransformers :: (evL ++ (rankPhase env).2
          ++ (resolveDevicePhase env (rankPhase env).1 a1).2), ?_⟩
        simp [hlr, List.append_assoc]
  · intro hlr
    have htr : (run env w args).trace
        = preTrace env w args
          ++ (dispatchPhase env w (preDispatchArgs env w args)).2.1 := by
      rw [run_spec env w args hnl hnc]
      simp [hlr]
    refine ⟨?_, ?_, ?_, ?_⟩
    · rw [run_spec env w args hnl hnc]
      simp [hlr]
    · rw [run_spec env w args hnl hnc]
    · rw [run_spec env w args hnl hnc]
      simp [hlr]
    · rw [htr]
      intro h
      rcases List.mem_append.mp h with h | h
      · exact preTrace_root_no_redirect env w args hlr h
      · exact dispatchPhase_no_redirect env w (preDispatchArgs env w args) h

/-- Witness: the output gate on rank 1 (suppressed, logger raised) and on
rank 0 (configuration echo printed). -/
theorem output_gate_witness :
    (run envD w0 argsElicit).output = []
      ∧ (run envD w0 argsElicit).transformersLogLevel = logging_ERROR
      ∧ (run env0 w0 argsElicit).output
          = echoLines (preDispatchArgs env0 w0 argsElicit)
      ∧ (run env0 w0 argsElicit).transformersLogLevel = logging_WARNING := by
  have h1 := output_gate envD w0 argsElicit (by decide) (by decide)
  have h2 := output_gate env0 w0 argsElicit (by decide) (by decide)
  exact ⟨(h1.1 (by decide)).1, (h1.1 (by decide)).2.2.1,
    (h2.2 (by decide)).1, (h2.2 (by decide)).2.2.1⟩

end Elk
